import Mathlib

/-!
Shallow embedding of `src/kaspi_parser.py` (Kaspi bank statement parser).

Python strings are modelled as Lean `String` / `List Char`; Python `float`
values are modelled as exact rationals `ℚ` (the amounts appearing in the
claims are decimal fractions, exactly representable); exceptions are
modelled as `Except` / `Option` results.
-/

namespace Kaspi

/-- A raw table row: an ordered list of cell strings (the source gets these
from `page.extract_tables()`). -/
abbrev Row := List String

/-- A table: an ordered list of rows. -/
abbrev Table := List Row

/-- `TRANSACTION_TABLE_HEADER_VARIANTS` from the source: the three known
4-column header signatures. -/
def TRANSACTION_TABLE_HEADER_VARIANTS : List Row :=
  [["Date", "Amount", "Transaction", "Details"],
   ["Дата", "Сумма", "Операция", "Детали"],
   ["Күні", "Сомасы", "Операция", "Толығырақ"]]

/-- `EXPECTED_CURRENCY = "₸"` from the source. -/
def EXPECTED_CURRENCY : String := "₸"

/-- Python regex `\s` (ASCII fragment, which covers every input in the
claims): space, tab, newline, carriage return, vertical tab, form feed. -/
def isPySpace (c : Char) : Bool :=
  c = ' ' || c = '\t' || c = '\n' || c = '\r' || c = '\x0b' || c = '\x0c'

/-- The character class `[\d, ]` of `AMOUNT_PATTERN` (ASCII digits, comma,
space). -/
def isAmountChar (c : Char) : Bool :=
  c.isDigit || c = ',' || c = ' '

/-- Matcher for the tail regex fragment `" " ++ \S+ ++ $`: a literal space
followed by a nonempty run of non-whitespace characters reaching the end of
the line.  Returns the currency group. -/
def matchSpaceCurrency : List Char → Option (List Char)
  | ' ' :: cs => if !cs.isEmpty && cs.all (fun c => !isPySpace c) then some cs else none
  | _ => none

/-- Matcher for the regex fragment `[\d, ]* (\S+)$` with a literal space
between the two groups, following Python's greedy backtracking: the class
`[\d, ]` is extended as far as possible, giving characters back only when the
rest of the pattern cannot match.  Returns (amount-group tail, currency
group). -/
def matchAmountMore : List Char → Option (List Char × List Char)
  | [] => none
  | c :: cs =>
    if isAmountChar c then
      match matchAmountMore cs with
      | some (a, cur) => some (c :: a, cur)
      | none =>
        match matchSpaceCurrency (c :: cs) with
        | some cur => some ([], cur)
        | none => none
    else
      match matchSpaceCurrency (c :: cs) with
      | some cur => some ([], cur)
      | none => none

/-- Matcher for the regex fragment `(?P<amount>[\d, ]+) (?P<currency>\S+)$`:
at least one amount character, then the greedy continuation. -/
def matchAmountNum : List Char → Option (List Char × List Char)
  | [] => none
  | c :: cs =>
    if isAmountChar c then
      match matchAmountMore cs with
      | some (a, cur) => some (c :: a, cur)
      | none => none
    else none

/-- Matcher for the regex fragment `\s*[\d, ]+ \S+$` (the whole
`AMOUNT_PATTERN` after the sign): greedy `\s*` with backtracking. -/
def matchSignGap : List Char → Option (List Char × List Char)
  | [] => none
  | c :: cs =>
    if isPySpace c then
      match matchSignGap cs with
      | some r => some r
      | none => matchAmountNum (c :: cs)
    else matchAmountNum (c :: cs)

/-- `re.match(AMOUNT_PATTERN, line)` for
`AMOUNT_PATTERN = r"^(?P<sign>[+-])\s*(?P<amount>[\d, ]+) (?P<currency>\S+)$"`:
anchored at the start of the line; returns the three captured groups. -/
def matchAmountPattern (cs : List Char) : Option (Char × List Char × List Char) :=
  match cs with
  | [] => none
  | c :: rest =>
    if c = '+' || c = '-' then
      match matchSignGap rest with
      | some (a, cur) => some (c, a, cur)
      | none => none
    else none

/-- `amount_str.split('\n')[0]`: the prefix of the string before the first
newline. -/
def firstLine (cs : List Char) : List Char :=
  cs.takeWhile (fun c => c != '\n')

/-- `.replace(",", ".").replace(" ", "")` applied to the amount group:
commas become periods and spaces are removed. -/
def normalizeAmount (cs : List Char) : List Char :=
  (cs.map (fun c => if c = ',' then '.' else c)).filter (fun c => c != ' ')

/-- Value of a run of ASCII digits, most significant first. -/
def digitsToNat (cs : List Char) : Nat :=
  cs.foldl (fun n c => 10 * n + (c.toNat - 48)) 0

/-- Python `float(s)` restricted to the strings reachable in the source:
after normalization the amount group contains only ASCII digits and periods,
and `float` succeeds exactly when there is at most one period and at least
one digit.  The value is modelled exactly in `ℚ`. -/
def floatOfNormalized (cs : List Char) : Option ℚ :=
  let ip := cs.takeWhile Char.isDigit
  let rest := cs.dropWhile Char.isDigit
  match rest with
  | [] => if ip.isEmpty then none else some ((digitsToNat ip : ℚ))
  | '.' :: fp =>
    if fp.all Char.isDigit && !(ip.isEmpty && fp.isEmpty) then
      some ((digitsToNat ip : ℚ) + (digitsToNat fp : ℚ) / ((10 : ℚ) ^ fp.length))
    else none
  | _ => none

/-- The distinct failure modes of `parse_amount`: the explicit
`ValueError("Failed to parse amount: ...")` on a regex mismatch, the explicit
`ValueError("Unexpected currency: ...")`, and the `ValueError` raised by
`float()` itself when the normalized literal is not a valid float literal. -/
inductive AmountError where
  | format
  | currency
  | conversion
deriving DecidableEq, Repr

/-- `parse_amount` from the source: match the first line against
`AMOUNT_PATTERN`, check the currency group against `EXPECTED_CURRENCY`,
convert the normalized amount group with `float`, and negate unless the sign
group is `+`. -/
def parse_amount (s : String) : Except AmountError ℚ :=
  match matchAmountPattern (firstLine s.data) with
  | none => .error .format
  | some (sign, amt, cur) =>
    if String.mk cur ≠ EXPECTED_CURRENCY then .error .currency
    else
      match floatOfNormalized (normalizeAmount amt) with
      | none => .error .conversion
      | some q => .ok (if sign = '+' then q else -q)

/-- A calendar date as carried by the `datetime` object the source stores in
each transaction (the time-of-day part is always midnight and never used). -/
structure Date where
  year : Nat
  month : Nat
  day : Nat
deriving DecidableEq, Repr

/-- Gregorian leap year test, as used by Python's `datetime` validation. -/
def isLeapYear (y : Nat) : Bool :=
  (y % 4 = 0 && y % 100 ≠ 0) || y % 400 = 0

/-- Number of days in a month, as used by Python's `datetime` validation. -/
def daysInMonth (y m : Nat) : Nat :=
  if m = 2 then (if isLeapYear y then 29 else 28)
  else if m = 4 || m = 6 || m = 9 || m = 11 then 30 else 31

/-- One numeric field of `strptime`'s `%d` / `%m` directives: one or two
ASCII digits whose value lies in the directive's range. -/
def parseField (lo hi : Nat) (cs : List Char) : Option Nat :=
  if (cs.length = 1 || cs.length = 2) && cs.all Char.isDigit then
    let v := digitsToNat cs
    if lo ≤ v && v ≤ hi then some v else none
  else none

/-- `datetime.datetime.strptime(date, "%d.%m.%y")` from the source: a
day field (1-31), a period, a month field (1-12), a period, and exactly two
digits of two-digit year (00-68 mapping to 2000-2068, 69-99 to 1969-1999),
with nothing left over; the resulting day must exist in the resulting
month, otherwise `strptime` raises and the row is skipped. -/
def parse_date (s : String) : Option Date :=
  match s.data.splitOn '.' with
  | [ds, ms, ys] =>
    match parseField 1 31 ds, parseField 1 12 ms with
    | some d, some m =>
      if ys.length = 2 && ys.all Char.isDigit then
        let yy := digitsToNat ys
        let y := if yy ≤ 68 then 2000 + yy else 1900 + yy
        if d ≤ daysInMonth y m then some ⟨y, m, d⟩ else none
      else none
    | _, _ => none
  | _ => none

/-- Zero-pad a numeral to two digits, as `strftime`'s `%m` and `%d` do. -/
def pad2 (n : Nat) : String :=
  if n < 10 then "0" ++ toString n else toString n

/-- `transaction.date.strftime("%Y-%m-%d")` from `export_to_csv`. -/
def format_date (d : Date) : String :=
  toString d.year ++ "-" ++ pad2 d.month ++ "-" ++ pad2 d.day

/-- The `Transaction` dataclass from the source. -/
structure Transaction where
  date : Date
  payee : String
  memo : String
  amount : ℚ
deriving DecidableEq, Repr

/-- The body of the loop in `get_transactions`: destructure the row into
exactly four cells (a `ValueError` otherwise), parse the date cell with
`strptime`, parse the amount cell with `parse_amount`, and build the
transaction; `none` models the caught exception that makes the loop skip the
row. -/
def parse_transaction_row (line : Row) : Option Transaction :=
  match line with
  | [dateCell, amountCell, _operationType, detailsCell] =>
    match parse_date dateCell, parse_amount amountCell with
    | some d, .ok q => some { date := d, payee := detailsCell, memo := "", amount := q }
    | _, _ => none
  | _ => none

/-- `get_transactions` from the source: the generator yields one transaction
per row that parses, and the `except` clause silently drops every row that
raises. -/
def get_transactions (table : Table) : List Transaction :=
  match table with
  | [] => []
  | line :: rest =>
    match parse_transaction_row line with
    | some t => t :: get_transactions rest
    | none => get_transactions rest

/-- The ways one run of the `get_transaction_tables` generator can raise: the
`IndexError` from evaluating `table[0]` on an empty table, and the explicit
`ValueError("Failed to find the transaction table header")` after the loop. -/
inductive StreamError where
  | indexError
  | headerNotFound
deriving DecidableEq, Repr

/-- The inner loop of `get_transaction_tables` over the tables of one page:
given the `header_is_found` flag, returns the tables yielded from this page,
the flag after the page, and the error, if any, that aborted the generator
inside this page (further tables are then not reached). -/
def tablesInPage (headerFound : Bool) : List Table → List Table × Bool × Option StreamError
  | [] => ([], headerFound, none)
  | t :: ts =>
    if headerFound then
      let r := tablesInPage true ts
      (t :: r.1, r.2)
    else
      match t with
      | [] => ([], headerFound, some .indexError)
      | firstRow :: rest =>
        if firstRow ∈ TRANSACTION_TABLE_HEADER_VARIANTS then
          let r := tablesInPage true ts
          (rest :: r.1, r.2)
        else tablesInPage false ts

/-- The outer loop of `get_transaction_tables` over pages, threading the
`header_is_found` flag and stopping at the first raised error. -/
def tablesInPages (headerFound : Bool) : List (List Table) → List Table × Bool × Option StreamError
  | [] => ([], headerFound, none)
  | p :: ps =>
    let r := tablesInPage headerFound p
    match r.2.2 with
    | some err => (r.1, r.2.1, some err)
    | none =>
      let r2 := tablesInPages r.2.1 ps
      (r.1 ++ r2.1, r2.2)

/-- `get_transaction_tables` from the source, as observed by its consumer: a
document is a list of pages, each page a list of tables (the result of
`page.extract_tables()`); the generator produces a finite prefix of yielded
tables together with the error, if any, raised while (or after) walking the
pages — in particular `ValueError` when the page sequence is exhausted with
the header never found. -/
def get_transaction_tables (pages : List (List Table)) : List Table × Option StreamError :=
  let r := tablesInPages false pages
  match r.2.2 with
  | some err => (r.1, some err)
  | none => (r.1, if r.2.1 then none else some .headerNotFound)

/-- The three running totals accumulated by `parse_statement` (reported via
the log, not returned). -/
structure RunTotals where
  total_change : ℚ
  total_inflow : ℚ
  total_outflow : ℚ
deriving DecidableEq, Repr

/-- Python's built-in `round` with one argument on an exactly-represented
value: round to the nearest integer, ties to the even neighbor.  (Also the
rounding rule binary64 arithmetic applies to a value expressed in units of
the target grid step.) -/
def pyRound (q : ℚ) : ℤ :=
  let f := ⌊q⌋
  if q - f < 1 / 2 then f
  else if 1 / 2 < q - f then f + 1
  else if f % 2 = 0 then f else f + 1

/-- Bit length of a natural number (`0` for `0`, `⌊log₂ n⌋ + 1` otherwise),
written with an explicit fuel argument — the number itself suffices, since
the bit length never exceeds the number — so that the recursion is
structural and evaluates by kernel computation. -/
def natBits : Nat → Nat → Nat
  | 0, _ => 0
  | fuel + 1, n => if n = 0 then 0 else natBits fuel (n / 2) + 1

/-- `⌊log₂ |q|⌋` for a nonzero rational `q`, from the bit lengths of
numerator and denominator: their difference `d` satisfies
`2 ^ (d - 1) < |q| < 2 ^ (d + 1)`, and one comparison picks the floor. -/
def ratLog2Floor (q : ℚ) : ℤ :=
  if (2 : ℚ) ^ ((natBits q.num.natAbs q.num.natAbs : ℤ) - (natBits q.den q.den : ℤ)) ≤ |q|
  then (natBits q.num.natAbs q.num.natAbs : ℤ) - (natBits q.den q.den : ℤ)
  else (natBits q.num.natAbs q.num.natAbs : ℤ) - (natBits q.den q.den : ℤ) - 1

/-- Rounding of an exact rational to the nearest IEEE-754 binary64 value
(the arithmetic of Python's `float`), ties to even: the binade of `q` fixes
the grid step `2 ^ (e - 52)` — clamped at the subnormal threshold
`e = -1022` — and `q` is rounded to the nearest multiple of that step.
Overflow to infinity (beyond `2 ^ 1024`) is not modelled; every value
reachable in the claims stays far below it. -/
def roundFloat (q : ℚ) : ℚ :=
  if q = 0 then 0
  else (pyRound (q / 2 ^ (max (ratLog2Floor q) (-1022) - 52)) : ℚ)
        * 2 ^ (max (ratLog2Floor q) (-1022) - 52)

/-- The per-transaction accumulation step of `parse_statement`.  The
accumulators in the source are Python floats, so each `+=` stores the
binary64 rounding of the exact sum: `total_change += amount`; amounts
strictly greater than zero go to `total_inflow`, all others (zero included)
to `total_outflow`. -/
def update_totals (tot : RunTotals) (t : Transaction) : RunTotals :=
  { total_change := roundFloat (tot.total_change + t.amount)
    total_inflow :=
      if t.amount > 0 then roundFloat (tot.total_inflow + t.amount) else tot.total_inflow
    total_outflow :=
      if t.amount > 0 then tot.total_outflow else roundFloat (tot.total_outflow + t.amount) }

/-- The accumulation step in the spec's words — "net change (sum of all
amounts)", "inflow (sum where amount > 0)", "outflow (sum where amount ≤
0)" — as exact sums: the idealization of the float accumulators of
`update_totals`, kept alongside it to state when the program's totals agree
with the ideal ones. -/
def update_totals_spec (tot : RunTotals) (t : Transaction) : RunTotals :=
  { total_change := tot.total_change + t.amount
    total_inflow := if t.amount > 0 then tot.total_inflow + t.amount else tot.total_inflow
    total_outflow := if t.amount > 0 then tot.total_outflow else tot.total_outflow + t.amount }

/-- The body of `parse_statement`'s `try` block: documents whose opening
fails are modelled by `none` (any `pdfplumber.open` failure is caught and the
initial empty list is returned); otherwise the loop consumes the yielded
tables in order — the generator's error, raised only after the prefix of
yielded tables has been fully processed, is caught by the enclosing `except`
and the transactions (and totals) accumulated so far survive.  Returns the
final transaction list and run totals. -/
def parse_statement_run (doc : Option (List (List Table))) : List Transaction × RunTotals :=
  match doc with
  | none => ([], ⟨0, 0, 0⟩)
  | some pages =>
    let tables := (get_transaction_tables pages).1
    tables.foldl
      (fun acc table =>
        (get_transactions table).foldl
          (fun acc2 t => (acc2.1 ++ [t], update_totals acc2.2 t)) acc)
      ([], ⟨0, 0, 0⟩)

/-- The same run with the spec's exact accumulators in place of the float
ones: the ideal totals the program's totals are compared against. -/
def parse_statement_run_spec (doc : Option (List (List Table))) : List Transaction × RunTotals :=
  match doc with
  | none => ([], ⟨0, 0, 0⟩)
  | some pages =>
    let tables := (get_transaction_tables pages).1
    tables.foldl
      (fun acc table =>
        (get_transactions table).foldl
          (fun acc2 t => (acc2.1 ++ [t], update_totals_spec acc2.2 t)) acc)
      ([], ⟨0, 0, 0⟩)

/-- `parse_statement` from the source: always returns the accumulated
transaction list (the totals are only logged). -/
def parse_statement (doc : Option (List (List Table))) : List Transaction :=
  (parse_statement_run doc).1

/-- One CSV record written by `export_to_csv`, in field order
Date, Payee, Memo, Amount: the date through `strftime("%Y-%m-%d")`, payee
and memo verbatim, and the amount through `round(...)` rendered as the
decimal string `str` produces. -/
def export_row (t : Transaction) : List String :=
  [format_date t.date, t.payee, t.memo, toString (pyRound t.amount)]

/-- The full sequence of records `export_to_csv` writes: the header row
followed by one record per transaction, in order. -/
def export_rows (ts : List Transaction) : List (List String) :=
  ["Date", "Payee", "Memo", "Amount"] :: ts.map export_row

/-! ### Helper lemmas -/

/-- Once the header flag is set, every remaining table of the page is yielded
in full, in order, and no error can arise on that page. -/
lemma tablesInPage_true (ts : List Table) : tablesInPage true ts = (ts, true, none) := by
  induction ts with
  | nil => rfl
  | cons t ts ih => simp [tablesInPage, ih]

/-- Once the header flag is set, every table of every remaining page is
yielded in full, in document order. -/
lemma tablesInPages_true (ps : List (List Table)) :
    tablesInPages true ps = (ps.flatten, true, none) := by
  induction ps with
  | nil => rfl
  | cons p ps ih => simp [tablesInPages, tablesInPage_true, ih]

/-- A successfully converted amount literal is non-negative (it is built from
digit runs divided by a positive power of ten). -/
lemma floatOfNormalized_nonneg (cs : List Char) (q : ℚ)
    (h : floatOfNormalized cs = some q) : 0 ≤ q := by
  simp only [floatOfNormalized] at h
  split at h
  · split at h
    · simp at h
    · simp only [Option.some.injEq] at h
      rw [← h]
      positivity
  · split at h
    · simp only [Option.some.injEq] at h
      rw [← h]
      positivity
    · simp at h
  · simp at h

/-- Normal form of `parse_amount` with the currency test phrased positively
(the source raises on `!=`, which is the same dichotomy). -/
lemma parse_amount_eq (s : String) :
    parse_amount s =
      match matchAmountPattern (firstLine s.data) with
      | none => .error .format
      | some (sign, amt, cur) =>
        if String.mk cur = EXPECTED_CURRENCY then
          (match floatOfNormalized (normalizeAmount amt) with
            | none => .error .conversion
            | some q => .ok (if sign = '+' then q else -q))
        else .error .currency := by
  unfold parse_amount
  rcases matchAmountPattern (firstLine s.data) with _ | ⟨sign, amt, cur⟩
  · rfl
  · by_cases h : String.mk cur = EXPECTED_CURRENCY <;> simp [h]

/-- Evaluating the anchored sign class `[+-]` of `AMOUNT_PATTERN`. -/
lemma matchAmountPattern_sign (c : Char) (rest : List Char)
    (h : (c = '+' || c = '-') = true) :
    matchAmountPattern (c :: rest)
      = match matchSignGap rest with
        | some (a, cur) => some (c, a, cur)
        | none => none := by
  simp only [matchAmountPattern, h, if_true]

/-! ### Claims -/

/-- Claim C4: a table's first row is recognized as a transaction-table header
exactly when it equals, as a list of strings (same length, same order,
case-sensitive equality cell by cell), one of the three signatures in
`TRANSACTION_TABLE_HEADER_VARIANTS`; the full English signature is
recognized, while dropping the last column or altering one cell is not; and
in the table-stream loop a recognized first row starts the transaction
section while an unrecognized one makes the table be skipped. -/
theorem claim4_header_exact_match :
    (∀ row : Row,
      row ∈ TRANSACTION_TABLE_HEADER_VARIANTS
        ↔ (row = ["Date", "Amount", "Transaction", "Details"]
            ∨ row = ["Дата", "Сумма", "Операция", "Детали"]
            ∨ row = ["Күні", "Сомасы", "Операция", "Толығырақ"]))
    ∧ ["Date", "Amount", "Transaction", "Details"] ∈ TRANSACTION_TABLE_HEADER_VARIANTS
    ∧ ["Date", "Amount", "Transaction"] ∉ TRANSACTION_TABLE_HEADER_VARIANTS
    ∧ ["Date", "Amount", "Transfer", "Details"] ∉ TRANSACTION_TABLE_HEADER_VARIANTS
    ∧ (∀ (firstRow : Row) (rest : Table) (ts : List Table),
        tablesInPage false ((firstRow :: rest) :: ts)
          = if firstRow ∈ TRANSACTION_TABLE_HEADER_VARIANTS
            then (rest :: ts, true, none)
            else tablesInPage false ts) := by
  refine ⟨?_, by decide, by decide, by decide, ?_⟩
  · intro row
    simp [TRANSACTION_TABLE_HEADER_VARIANTS]
  · intro firstRow rest ts
    by_cases hmem : firstRow ∈ TRANSACTION_TABLE_HEADER_VARIANTS
    · simp [tablesInPage, hmem, tablesInPage_true]
    · simp [tablesInPage, hmem]

/-- Claim C3: tables seen after the header are all yielded in full in
document order (on the same page and on later pages), and in the concrete
shape of the claim — page one holding a non-matching table `r0 :: t0` then a
header table `hdr :: t1rest`, page two holding `T2` — the yielded batches are
exactly `[t1rest, T2]`, i.e. the raw-row sequence is the header table minus
its first row followed by the whole continuation table. -/
theorem claim3_multipage_continuation :
    (∀ ts : List Table, tablesInPage true ts = (ts, true, none))
    ∧ (∀ ps : List (List Table), tablesInPages true ps = (ps.flatten, true, none))
    ∧ (∀ (r0 : Row) (t0 : Table) (hdr : Row) (t1rest : Table) (T2 : Table),
        r0 ∉ TRANSACTION_TABLE_HEADER_VARIANTS →
        hdr ∈ TRANSACTION_TABLE_HEADER_VARIANTS →
        get_transaction_tables [[r0 :: t0, hdr :: t1rest], [T2]] = ([t1rest, T2], none)
          ∧ ((get_transaction_tables [[r0 :: t0, hdr :: t1rest], [T2]]).1.flatten
              = t1rest ++ T2)) := by
  refine ⟨tablesInPage_true, tablesInPages_true, ?_⟩
  intro r0 t0 hdr t1rest T2 h0 h1
  have : get_transaction_tables [[r0 :: t0, hdr :: t1rest], [T2]] = ([t1rest, T2], none) := by
    simp [get_transaction_tables, tablesInPages, tablesInPage, h0, h1, tablesInPage_true]
  exact ⟨this, by simp [this]⟩

/-- Claim C3 witness: the continuation behavior at a concrete document. -/
theorem claim3_multipage_continuation_witness :
    get_transaction_tables
        [[[["account", "summary"]],
          [["Date", "Amount", "Transaction", "Details"],
           ["01.03.24", "+ 1 000,50 ₸", "Transfer", "Alice"]]],
         [[["02.03.24", "- 250 ₸", "Purchase", "Shop"]]]]
      = ([[["01.03.24", "+ 1 000,50 ₸", "Transfer", "Alice"]],
          [["02.03.24", "- 250 ₸", "Purchase", "Shop"]]], none) :=
  (claim3_multipage_continuation.2.2
    ["account", "summary"] [] ["Date", "Amount", "Transaction", "Details"]
    [["01.03.24", "+ 1 000,50 ₸", "Transfer", "Alice"]]
    [["02.03.24", "- 250 ₸", "Purchase", "Shop"]]
    (by decide) (by decide)).1

/-- Claim C5: the amount parser is antisymmetric in the sign marker — if the
same magnitude text parses under both a `+` and a `-` sign, the two results
are exact negatives of each other, the `+` result being non-negative and the
`-` result non-positive. -/
theorem claim5_amount_sign :
    ∀ (cs : List Char) (q q' : ℚ),
      parse_amount (String.mk ('+' :: cs)) = .ok q →
      parse_amount (String.mk ('-' :: cs)) = .ok q' →
      q = -q' ∧ 0 ≤ q ∧ q' ≤ 0 := by
  intro cs q q' hp hm
  have hfl : firstLine ('+' :: cs) = '+' :: firstLine cs := by
    simp [firstLine, List.takeWhile]
  have hfl' : firstLine ('-' :: cs) = '-' :: firstLine cs := by
    simp [firstLine, List.takeWhile]
  rw [parse_amount_eq] at hp hm
  have hdp : (String.mk ('+' :: cs)).data = '+' :: cs := rfl
  have hdm : (String.mk ('-' :: cs)).data = '-' :: cs := rfl
  rw [hdp, hfl, matchAmountPattern_sign '+' (firstLine cs) (by decide)] at hp
  rw [hdm, hfl', matchAmountPattern_sign '-' (firstLine cs) (by decide)] at hm
  rcases hsg : matchSignGap (firstLine cs) with _ | ⟨a, cur⟩
  · rw [hsg] at hp
    simp at hp
  · rw [hsg] at hp hm
    dsimp only at hp hm
    by_cases hcur : String.mk cur = EXPECTED_CURRENCY
    · rw [if_pos hcur] at hp hm
      rcases hfo : floatOfNormalized (normalizeAmount a) with _ | v
      · rw [hfo] at hp
        simp at hp
      · rw [hfo] at hp hm
        simp at hp hm
        have hv : 0 ≤ v := floatOfNormalized_nonneg _ _ hfo
        refine ⟨by linarith, by linarith, by linarith⟩
    · rw [if_neg hcur] at hp
      simp at hp

/-- Claim C5 witness: both signs at the concrete magnitude `250 ₸`. -/
theorem claim5_amount_sign_witness :
    (250 : ℚ) = -(-250 : ℚ) ∧ (0 : ℚ) ≤ 250 ∧ (-250 : ℚ) ≤ 0 :=
  claim5_amount_sign (" 250 ₸".data) 250 (-250) (by rfl) (by rfl)

/-- Claim C2: a row that fails to parse is skipped and processing continues —
removing any one failing row from anywhere in the row sequence leaves the
output of the builder on the surrounding rows unchanged; concretely, on three
rows where the middle one destructures into four cells but has an amount cell
the amount parser rejects, the builder yields exactly the transactions of
rows one and three, in that order. -/
theorem claim2_row_skip :
    (∀ (pre post : Table) (row : Row),
      parse_transaction_row row = none →
      get_transactions (pre ++ row :: post)
        = get_transactions pre ++ get_transactions post)
    ∧ (∀ (r1 r3 : Row) (d2 a2 o2 det2 : String) (t1 t3 : Transaction) (e : AmountError),
      parse_transaction_row r1 = some t1 →
      parse_transaction_row r3 = some t3 →
      parse_amount a2 = .error e →
      get_transactions [r1, [d2, a2, o2, det2], r3] = [t1, t3]) := by
  have hskip : ∀ (pre post : Table) (row : Row),
      parse_transaction_row row = none →
      get_transactions (pre ++ row :: post)
        = get_transactions pre ++ get_transactions post := by
    intro pre post row h
    induction pre with
    | nil => simp [get_transactions, h]
    | cons r pre ih =>
      simp only [List.cons_append, get_transactions]
      cases parse_transaction_row r <;> simp [ih]
  refine ⟨hskip, ?_⟩
  intro r1 r3 d2 a2 o2 det2 t1 t3 e h1 h3 ha
  have hrow2 : parse_transaction_row [d2, a2, o2, det2] = none := by
    simp only [parse_transaction_row, ha]
    cases parse_date d2 <;> rfl
  simp [get_transactions, h1, h3, hrow2]

/-- Claim C2 witness: three concrete rows, the middle amount unparseable. -/
theorem claim2_row_skip_witness :
    get_transactions
        [["01.03.24", "+ 1 000 ₸", "Transfer", "Alice"],
         ["02.03.24", "garbage", "Purchase", "Bob"],
         ["02.03.24", "- 250 ₸", "Purchase", "Shop"]]
      = [{ date := ⟨2024, 3, 1⟩, payee := "Alice", memo := "", amount := 1000 },
         { date := ⟨2024, 3, 2⟩, payee := "Shop", memo := "", amount := -250 }] :=
  claim2_row_skip.2
    ["01.03.24", "+ 1 000 ₸", "Transfer", "Alice"]
    ["02.03.24", "- 250 ₸", "Purchase", "Shop"]
    "02.03.24" "garbage" "Purchase" "Bob" _ _ AmountError.format
    (by rfl) (by rfl) (by rfl)

/-- The transaction-list component of the inner accumulation loop of
`parse_statement`: it appends the parsed transactions in order. -/
lemma inner_foldl_fst (ts : List Transaction) (acc : List Transaction × RunTotals) :
    (ts.foldl (fun acc2 t => (acc2.1 ++ [t], update_totals acc2.2 t)) acc).1
      = acc.1 ++ ts := by
  induction ts generalizing acc with
  | nil => simp
  | cons t ts ih => simp [List.foldl_cons, ih]

/-- The transaction-list component of the outer accumulation loop of
`parse_statement`: the transactions of the yielded tables, flattened in
order. -/
lemma outer_foldl_fst (tables : List Table) (acc : List Transaction × RunTotals) :
    (tables.foldl
        (fun acc table =>
          (get_transactions table).foldl
            (fun acc2 t => (acc2.1 ++ [t], update_totals acc2.2 t)) acc)
        acc).1
      = acc.1 ++ (tables.map get_transactions).flatten := by
  induction tables generalizing acc with
  | nil => simp
  | cons t tables ih => simp [List.foldl_cons, ih, inner_foldl_fst]

/-- The net-change invariant of the spec's exact totals accumulator. -/
lemma update_totals_spec_invariant (r : RunTotals) (t : Transaction)
    (h : r.total_change = r.total_inflow + r.total_outflow) :
    (update_totals_spec r t).total_change
      = (update_totals_spec r t).total_inflow + (update_totals_spec r t).total_outflow := by
  unfold update_totals_spec
  by_cases hpos : t.amount > 0 <;> simp only [hpos, if_true, if_false, ite_true, ite_false] <;>
    linarith

/-- The net-change invariant is preserved by the inner exact accumulation
loop. -/
lemma inner_foldl_spec_invariant (ts : List Transaction) (acc : List Transaction × RunTotals)
    (h : acc.2.total_change = acc.2.total_inflow + acc.2.total_outflow) :
    (ts.foldl (fun acc2 t => (acc2.1 ++ [t], update_totals_spec acc2.2 t)) acc).2.total_change
      = (ts.foldl (fun acc2 t => (acc2.1 ++ [t], update_totals_spec acc2.2 t)) acc).2.total_inflow
        + (ts.foldl (fun acc2 t => (acc2.1 ++ [t], update_totals_spec acc2.2 t)) acc).2.total_outflow := by
  induction ts generalizing acc with
  | nil => simpa using h
  | cons t ts ih => exact ih _ (update_totals_spec_invariant _ _ h)

/-- The net-change invariant is preserved by the outer exact accumulation
loop. -/
lemma outer_foldl_spec_invariant (tables : List Table) (acc : List Transaction × RunTotals)
    (h : acc.2.total_change = acc.2.total_inflow + acc.2.total_outflow) :
    (tables.foldl
        (fun acc table =>
          (get_transactions table).foldl
            (fun acc2 t => (acc2.1 ++ [t], update_totals_spec acc2.2 t)) acc)
        acc).2.total_change
      = (tables.foldl
          (fun acc table =>
            (get_transactions table).foldl
              (fun acc2 t => (acc2.1 ++ [t], update_totals_spec acc2.2 t)) acc)
          acc).2.total_inflow
        + (tables.foldl
            (fun acc table =>
              (get_transactions table).foldl
                (fun acc2 t => (acc2.1 ++ [t], update_totals_spec acc2.2 t)) acc)
            acc).2.total_outflow := by
  induction tables generalizing acc with
  | nil => simpa using h
  | cons t tables ih => exact ih _ (inner_foldl_spec_invariant _ _ h)

/-- `pyRound` is the identity on integers. -/
lemma pyRound_intCast (n : ℤ) : pyRound ((n : ℤ) : ℚ) = n := by
  unfold pyRound
  norm_num [Int.floor_intCast]

/-- Rounding zero gives zero. -/
lemma roundFloat_zero : roundFloat 0 = 0 := by
  unfold roundFloat
  simp

/-- Evaluation scheme for `roundFloat` at a concrete nonzero normal value:
supply the binade exponent and the rounded mantissa count. -/
lemma roundFloat_eval (q : ℚ) (e m : ℤ)
    (hq : q ≠ 0) (he : ratLog2Floor q = e) (hge : -1022 ≤ e)
    (hm : pyRound (q / 2 ^ (e - 52)) = m) :
    roundFloat q = (m : ℚ) * 2 ^ (e - 52) := by
  unfold roundFloat
  rw [if_neg hq, he, max_eq_left hge, hm]

lemma ratLog2Floor_one : ratLog2Floor (1 : ℚ) = 0 := by
  unfold ratLog2Floor
  rw [show (1 : ℚ).num.natAbs = 1 by norm_num, show (1 : ℚ).den = 1 by norm_num,
    show natBits 1 1 = 1 from by decide]
  norm_num

lemma ratLog2Floor_250 : ratLog2Floor (250 : ℚ) = 7 := by
  unfold ratLog2Floor
  rw [show (250 : ℚ).num.natAbs = 250 by norm_num, show (250 : ℚ).den = 1 by norm_num,
    show natBits 250 250 = 8 from by decide, show natBits 1 1 = 1 from by decide]
  norm_num

lemma ratLog2Floor_big : ratLog2Floor (10000000000000000 : ℚ) = 53 := by
  unfold ratLog2Floor
  rw [show (10000000000000000 : ℚ).num.natAbs = 10000000000000000 by norm_num,
    show (10000000000000000 : ℚ).den = 1 by norm_num,
    show natBits 10000000000000000 10000000000000000 = 54 from by decide,
    show natBits 1 1 = 1 from by decide]
  norm_num

lemma ratLog2Floor_nbig : ratLog2Floor (-10000000000000000 : ℚ) = 53 := by
  unfold ratLog2Floor
  rw [show (-10000000000000000 : ℚ).num.natAbs = 10000000000000000 by norm_num,
    show (-10000000000000000 : ℚ).den = 1 by norm_num,
    show natBits 10000000000000000 10000000000000000 = 54 from by decide,
    show natBits 1 1 = 1 from by decide]
  norm_num

lemma ratLog2Floor_bigsucc : ratLog2Floor (10000000000000001 : ℚ) = 53 := by
  unfold ratLog2Floor
  rw [show (10000000000000001 : ℚ).num.natAbs = 10000000000000001 by norm_num,
    show (10000000000000001 : ℚ).den = 1 by norm_num,
    show natBits 10000000000000001 10000000000000001 = 54 from by decide,
    show natBits 1 1 = 1 from by decide]
  norm_num

/-- `1.0` is exactly representable. -/
lemma roundFloat_one : roundFloat (1 : ℚ) = 1 := by
  have hm : pyRound ((1 : ℚ) / 2 ^ ((0 : ℤ) - 52)) = 4503599627370496 := by
    rw [show ((1 : ℚ) / 2 ^ ((0 : ℤ) - 52)) = ((4503599627370496 : ℤ) : ℚ) by norm_num]
    exact pyRound_intCast _
  rw [roundFloat_eval _ 0 4503599627370496 (by norm_num) ratLog2Floor_one (by norm_num) hm]
  norm_num

/-- `250.0` is exactly representable. -/
lemma roundFloat_250 : roundFloat (250 : ℚ) = 250 := by
  have hm : pyRound ((250 : ℚ) / 2 ^ ((7 : ℤ) - 52)) = 8796093022208000 := by
    rw [show ((250 : ℚ) / 2 ^ ((7 : ℤ) - 52)) = ((8796093022208000 : ℤ) : ℚ) by norm_num]
    exact pyRound_intCast _
  rw [roundFloat_eval _ 7 8796093022208000 (by norm_num) ratLog2Floor_250 (by norm_num) hm]
  norm_num

/-- `1e16` is exactly representable (it sits in the binade `[2^53, 2^54)`,
whose grid step is 2). -/
lemma roundFloat_big : roundFloat (10000000000000000 : ℚ) = 10000000000000000 := by
  have hm : pyRound ((10000000000000000 : ℚ) / 2 ^ ((53 : ℤ) - 52)) = 5000000000000000 := by
    rw [show ((10000000000000000 : ℚ) / 2 ^ ((53 : ℤ) - 52))
        = ((5000000000000000 : ℤ) : ℚ) by norm_num]
    exact pyRound_intCast _
  rw [roundFloat_eval _ 53 5000000000000000 (by norm_num) ratLog2Floor_big (by norm_num) hm]
  norm_num

/-- `-1e16` is exactly representable. -/
lemma roundFloat_nbig : roundFloat (-10000000000000000 : ℚ) = -10000000000000000 := by
  have hm : pyRound ((-10000000000000000 : ℚ) / 2 ^ ((53 : ℤ) - 52)) = -5000000000000000 := by
    rw [show ((-10000000000000000 : ℚ) / 2 ^ ((53 : ℤ) - 52))
        = ((-5000000000000000 : ℤ) : ℚ) by norm_num]
    exact pyRound_intCast _
  rw [roundFloat_eval _ 53 (-5000000000000000) (by norm_num) ratLog2Floor_nbig (by norm_num) hm]
  norm_num

/-- `1e16 + 1` is a tie between the grid neighbors `1e16` and `1e16 + 2`,
and the even mantissa (`5e15`) wins: the float sum absorbs the `1`. -/
lemma roundFloat_bigsucc : roundFloat (10000000000000001 : ℚ) = 10000000000000000 := by
  have hm : pyRound ((10000000000000001 : ℚ) / 2 ^ ((53 : ℤ) - 52)) = 5000000000000000 := by
    rw [show (2 : ℚ) ^ ((53 : ℤ) - 52) = 2 by norm_num]
    unfold pyRound
    norm_num
  rw [roundFloat_eval _ 53 5000000000000000 (by norm_num) ratLog2Floor_bigsucc (by norm_num) hm]
  norm_num

/-- Claim C7 counterexample: a completed run over the parseable amounts
`+1e16`, `-1e16`, `+1` — the float accumulators give net change `1.0` (the
`1` survives after the big amounts cancel) but inflow `1e16` (the `1` is
absorbed: `1e16 + 1` rounds back to `1e16`) and outflow `-1e16`, so inflow
plus outflow is `0` and the claimed identity fails. -/
theorem claim7_counterexample :
    (get_transaction_tables
        [[[["Date", "Amount", "Transaction", "Details"],
           ["01.03.24", "+ 10 000 000 000 000 000 ₸", "Transfer", "Big In"],
           ["01.03.24", "- 10 000 000 000 000 000 ₸", "Transfer", "Big Out"],
           ["01.03.24", "+ 1 ₸", "Transfer", "Small"]]]]).2 = none
    ∧ (parse_statement_run (some
        [[[["Date", "Amount", "Transaction", "Details"],
           ["01.03.24", "+ 10 000 000 000 000 000 ₸", "Transfer", "Big In"],
           ["01.03.24", "- 10 000 000 000 000 000 ₸", "Transfer", "Big Out"],
           ["01.03.24", "+ 1 ₸", "Transfer", "Small"]]]])).2
      = ⟨1, 10000000000000000, -10000000000000000⟩
    ∧ ¬ ((parse_statement_run (some
        [[[["Date", "Amount", "Transaction", "Details"],
           ["01.03.24", "+ 10 000 000 000 000 000 ₸", "Transfer", "Big In"],
           ["01.03.24", "- 10 000 000 000 000 000 ₸", "Transfer", "Big Out"],
           ["01.03.24", "+ 1 ₸", "Transfer", "Small"]]]])).2.total_change
        = (parse_statement_run (some
        [[[["Date", "Amount", "Transaction", "Details"],
           ["01.03.24", "+ 10 000 000 000 000 000 ₸", "Transfer", "Big In"],
           ["01.03.24", "- 10 000 000 000 000 000 ₸", "Transfer", "Big Out"],
           ["01.03.24", "+ 1 ₸", "Transfer", "Small"]]]])).2.total_inflow
          + (parse_statement_run (some
        [[[["Date", "Amount", "Transaction", "Details"],
           ["01.03.24", "+ 10 000 000 000 000 000 ₸", "Transfer", "Big In"],
           ["01.03.24", "- 10 000 000 000 000 000 ₸", "Transfer", "Big Out"],
           ["01.03.24", "+ 1 ₸", "Transfer", "Small"]]]])).2.total_outflow) := by
  have hrows : get_transactions
      [["01.03.24", "+ 10 000 000 000 000 000 ₸", "Transfer", "Big In"],
       ["01.03.24", "- 10 000 000 000 000 000 ₸", "Transfer", "Big Out"],
       ["01.03.24", "+ 1 ₸", "Transfer", "Small"]]
      = [{ date := ⟨2024, 3, 1⟩, payee := "Big In", memo := "",
           amount := (10000000000000000 : ℚ) },
         { date := ⟨2024, 3, 1⟩, payee := "Big Out", memo := "",
           amount := -(10000000000000000 : ℚ) },
         { date := ⟨2024, 3, 1⟩, payee := "Small", memo := "", amount := (1 : ℚ) }] := rfl
  have h1 : update_totals ⟨0, 0, 0⟩
      { date := ⟨2024, 3, 1⟩, payee := "Big In", memo := "",
        amount := (10000000000000000 : ℚ) }
      = ⟨10000000000000000, 10000000000000000, 0⟩ := by
    unfold update_totals
    norm_num [roundFloat_big]
  have h2 : update_totals ⟨10000000000000000, 10000000000000000, 0⟩
      { date := ⟨2024, 3, 1⟩, payee := "Big Out", memo := "",
        amount := -(10000000000000000 : ℚ) }
      = ⟨0, 10000000000000000, -10000000000000000⟩ := by
    unfold update_totals
    norm_num [roundFloat_zero, roundFloat_nbig]
  have h3 : update_totals ⟨0, 10000000000000000, -10000000000000000⟩
      { date := ⟨2024, 3, 1⟩, payee := "Small", memo := "", amount := (1 : ℚ) }
      = ⟨1, 10000000000000000, -10000000000000000⟩ := by
    unfold update_totals
    norm_num [roundFloat_one, show (10000000000000000 : ℚ) + 1 = 10000000000000001 by norm_num,
      roundFloat_bigsucc]
  have hrun : (parse_statement_run (some
      [[[["Date", "Amount", "Transaction", "Details"],
         ["01.03.24", "+ 10 000 000 000 000 000 ₸", "Transfer", "Big In"],
         ["01.03.24", "- 10 000 000 000 000 000 ₸", "Transfer", "Big Out"],
         ["01.03.24", "+ 1 ₸", "Transfer", "Small"]]]])).2
      = ⟨1, 10000000000000000, -10000000000000000⟩ := by
    simp only [parse_statement_run]
    rw [show (get_transaction_tables
        [[[["Date", "Amount", "Transaction", "Details"],
           ["01.03.24", "+ 10 000 000 000 000 000 ₸", "Transfer", "Big In"],
           ["01.03.24", "- 10 000 000 000 000 000 ₸", "Transfer", "Big Out"],
           ["01.03.24", "+ 1 ₸", "Transfer", "Small"]]]]).1
        = [[["01.03.24", "+ 10 000 000 000 000 000 ₸", "Transfer", "Big In"],
            ["01.03.24", "- 10 000 000 000 000 000 ₸", "Transfer", "Big Out"],
            ["01.03.24", "+ 1 ₸", "Transfer", "Small"]]] from rfl]
    simp only [List.foldl_cons, List.foldl_nil]
    rw [hrows]
    simp [h1, h2, h3]
  exact ⟨rfl, hrun, by rw [hrun]; norm_num⟩

/-- Claim C7 as amended: the reported transaction count is the length of the
produced list; the spec's idealized exact accumulators always satisfy
net change = inflow + outflow (zero counted as outflow); and whenever the
program's float accumulation is exact — its totals coincide with the
idealized ones — the identity carries over to the program's totals.  In
general the float totals violate the identity (see the counterexample). -/
theorem claim7_amended_totals :
    ∀ doc : Option (List (List Table)),
      (parse_statement doc).length = (parse_statement_run doc).1.length
      ∧ (parse_statement_run_spec doc).2.total_change
          = (parse_statement_run_spec doc).2.total_inflow
            + (parse_statement_run_spec doc).2.total_outflow
      ∧ ((parse_statement_run doc).2 = (parse_statement_run_spec doc).2 →
          (parse_statement_run doc).2.total_change
            = (parse_statement_run doc).2.total_inflow
              + (parse_statement_run doc).2.total_outflow) := by
  intro doc
  have hspec : (parse_statement_run_spec doc).2.total_change
      = (parse_statement_run_spec doc).2.total_inflow
        + (parse_statement_run_spec doc).2.total_outflow := by
    cases doc with
    | none => simp [parse_statement_run_spec]
    | some pages => exact outer_foldl_spec_invariant _ ([], ⟨0, 0, 0⟩) (by simp)
  exact ⟨rfl, hspec, fun h => by rw [h]; exact hspec⟩

/-- Claim C7 amended witness: a one-row run with amount `250` (every float
addition exact), where the program's totals equal the idealized ones and the
identity holds. -/
theorem claim7_amended_totals_witness :
    (parse_statement (some
        [[[["Date", "Amount", "Transaction", "Details"],
           ["01.03.24", "+ 250 ₸", "Transfer", "Alice"]]]])).length
      = (parse_statement_run (some
        [[[["Date", "Amount", "Transaction", "Details"],
           ["01.03.24", "+ 250 ₸", "Transfer", "Alice"]]]])).1.length
    ∧ (parse_statement_run (some
        [[[["Date", "Amount", "Transaction", "Details"],
           ["01.03.24", "+ 250 ₸", "Transfer", "Alice"]]]])).2.total_change
      = (parse_statement_run (some
        [[[["Date", "Amount", "Transaction", "Details"],
           ["01.03.24", "+ 250 ₸", "Transfer", "Alice"]]]])).2.total_inflow
        + (parse_statement_run (some
        [[[["Date", "Amount", "Transaction", "Details"],
           ["01.03.24", "+ 250 ₸", "Transfer", "Alice"]]]])).2.total_outflow := by
  have h := claim7_amended_totals (some
    [[[["Date", "Amount", "Transaction", "Details"],
       ["01.03.24", "+ 250 ₸", "Transfer", "Alice"]]]])
  refine ⟨h.1, h.2.2 ?_⟩
  have hrow : get_transactions [["01.03.24", "+ 250 ₸", "Transfer", "Alice"]]
      = [{ date := ⟨2024, 3, 1⟩, payee := "Alice", memo := "", amount := (250 : ℚ) }] := rfl
  have hT : update_totals ⟨0, 0, 0⟩
      { date := ⟨2024, 3, 1⟩, payee := "Alice", memo := "", amount := (250 : ℚ) }
      = ⟨250, 250, 0⟩ := by
    unfold update_totals
    norm_num [roundFloat_250]
  have hTs : update_totals_spec ⟨0, 0, 0⟩
      { date := ⟨2024, 3, 1⟩, payee := "Alice", memo := "", amount := (250 : ℚ) }
      = ⟨250, 250, 0⟩ := by
    unfold update_totals_spec
    norm_num
  simp only [parse_statement_run, parse_statement_run_spec]
  rw [show (get_transaction_tables
      [[[["Date", "Amount", "Transaction", "Details"],
         ["01.03.24", "+ 250 ₸", "Transfer", "Alice"]]]]).1
      = [[["01.03.24", "+ 250 ₸", "Transfer", "Alice"]]] from rfl]
  simp only [List.foldl_cons, List.foldl_nil]
  rw [hrow]
  simp [hT, hTs]

/-- A page whose tables are all nonempty with non-matching first rows yields
nothing, leaves the flag unset, and raises nothing. -/
lemma tablesInPage_noheader (p : List Table)
    (h : ∀ t ∈ p, ∃ r rest, t = r :: rest ∧ r ∉ TRANSACTION_TABLE_HEADER_VARIANTS) :
    tablesInPage false p = ([], false, none) := by
  induction p with
  | nil => rfl
  | cons t ts ih =>
    obtain ⟨r, rest, rfl, hr⟩ := h t (List.mem_cons_self t ts)
    simp only [tablesInPage, Bool.false_eq_true, if_false, hr, reduceIte]
    exact ih fun u hu => h u (List.mem_cons_of_mem _ hu)

/-- A document whose tables are all nonempty with non-matching first rows
yields nothing and leaves the flag unset. -/
lemma tablesInPages_noheader (pages : List (List Table))
    (h : ∀ t ∈ pages.flatten,
      ∃ r rest, t = r :: rest ∧ r ∉ TRANSACTION_TABLE_HEADER_VARIANTS) :
    tablesInPages false pages = ([], false, none) := by
  induction pages with
  | nil => rfl
  | cons p ps ih =>
    have hp : tablesInPage false p = ([], false, none) :=
      tablesInPage_noheader p fun t ht => h t (by simp [ht])
    have hps : tablesInPages false ps = ([], false, none) :=
      ih fun t ht => h t (by simp [ht])
    simp [tablesInPages, hp, hps]

/-- Claim C1: `parse_statement` is total with respect to parsing — a document
that fails to open returns the empty list, and for every page sequence the
returned list is exactly the transactions of the prefix of tables the
assembler yielded before any failure (the stream error, whatever it is, is
swallowed); in particular a document all of whose tables have non-matching
first rows makes the assembler end in `HeaderNotFoundError` and
`parse_statement` return the empty list. -/
theorem claim1_parse_statement_total :
    (parse_statement none = [])
    ∧ (∀ pages : List (List Table),
        parse_statement (some pages)
          = ((get_transaction_tables pages).1.map get_transactions).flatten)
    ∧ (∀ pages : List (List Table),
        (∀ t ∈ pages.flatten,
          ∃ r rest, t = r :: rest ∧ r ∉ TRANSACTION_TABLE_HEADER_VARIANTS) →
        get_transaction_tables pages = ([], some .headerNotFound)
          ∧ parse_statement (some pages) = []) := by
  have htot : ∀ pages : List (List Table),
      parse_statement (some pages)
        = ((get_transaction_tables pages).1.map get_transactions).flatten := by
    intro pages
    unfold parse_statement parse_statement_run
    rw [outer_foldl_fst]
    simp
  refine ⟨rfl, htot, ?_⟩
  intro pages h
  have hget : get_transaction_tables pages = ([], some .headerNotFound) := by
    simp [get_transaction_tables, tablesInPages_noheader pages h]
  exact ⟨hget, by simp [htot, hget]⟩

/-- Claim C1 witness: a one-page document holding one non-matching table. -/
theorem claim1_parse_statement_total_witness :
    get_transaction_tables [[[["account", "summary"]]]]
        = ([], some StreamError.headerNotFound)
      ∧ parse_statement (some [[[["account", "summary"]]]]) = [] :=
  claim1_parse_statement_total.2.2 [[[["account", "summary"]]]]
    (by
      intro t ht
      simp only [List.flatten, List.append_nil, List.mem_singleton] at ht
      exact ⟨["account", "summary"], [], ht, by decide⟩)

/-- Extending a quiet pre-header page with an empty table and more tables:
the generator raises `IndexError` at the empty table, yielding nothing from
the page. -/
lemma tablesInPage_empty_table_aborts (p1 ts : List Table)
    (h : tablesInPage false p1 = ([], false, none)) :
    tablesInPage false (p1 ++ ([] : Table) :: ts)
      = ([], false, some StreamError.indexError) := by
  induction p1 with
  | nil => rfl
  | cons t p ih =>
    rcases t with _ | ⟨r, rest⟩
    · simp [tablesInPage] at h
    · by_cases hr : r ∈ TRANSACTION_TABLE_HEADER_VARIANTS
      · simp [tablesInPage, hr, tablesInPage_true] at h
      · simp only [tablesInPage, Bool.false_eq_true, if_false, hr, reduceIte,
          List.cons_append] at h ⊢
        exact ih h

/-- One unfolding step of the page loop. -/
lemma tablesInPages_cons (hf0 : Bool) (p : List Table) (rest : List (List Table)) :
    tablesInPages hf0 (p :: rest)
      = (match (tablesInPage hf0 p).2.2 with
        | some err => ((tablesInPage hf0 p).1, (tablesInPage hf0 p).2.1, some err)
        | none =>
          ((tablesInPage hf0 p).1 ++ (tablesInPages (tablesInPage hf0 p).2.1 rest).1,
            (tablesInPages (tablesInPage hf0 p).2.1 rest).2)) := rfl

/-- Pages that yield nothing and set nothing followed by a page that raises:
the run raises, with nothing yielded. -/
lemma tablesInPages_error_propagates (pages1 : List (List Table))
    (P : List Table) (pages2 : List (List Table))
    (h : tablesInPages false pages1 = ([], false, none))
    (hP : tablesInPage false P = ([], false, some StreamError.indexError)) :
    tablesInPages false (pages1 ++ P :: pages2)
      = ([], false, some StreamError.indexError) := by
  induction pages1 with
  | nil =>
    rw [List.nil_append, tablesInPages_cons, hP]
  | cons p ps ih =>
    rw [tablesInPages_cons] at h
    rw [List.cons_append, tablesInPages_cons]
    rcases hp : tablesInPage false p with ⟨ys, hf, e⟩
    rw [hp] at h
    dsimp only at h ⊢
    cases e with
    | some err => simp at h
    | none =>
      cases hf with
      | true =>
        dsimp only at h
        rw [tablesInPages_true] at h
        simp at h
      | false =>
        dsimp only at h ⊢
        rcases hr2 : tablesInPages false ps with ⟨zs, hf2, e2⟩
        rw [hr2] at h
        simp only [Prod.mk.injEq, List.append_eq_nil] at h
        obtain ⟨⟨hys, hzs⟩, hhf2, he2⟩ := h
        subst hys
        subst hzs
        subst hhf2
        subst he2
        rw [ih hr2]
        simp

/-- Claim C10: an empty (zero-row) table encountered before the header has
been found is not skipped — evaluating `table[0]` raises `IndexError`, the
assembly run aborts, the error is caught at the top level, and every
transaction in later tables of the document is lost: `parse_statement`
returns the empty list. -/
theorem claim10_empty_table_aborts :
    ∀ (pages1 : List (List Table)) (p1 ts : List Table) (pages2 : List (List Table)),
      tablesInPages false pages1 = ([], false, none) →
      tablesInPage false p1 = ([], false, none) →
      get_transaction_tables (pages1 ++ (p1 ++ ([] : Table) :: ts) :: pages2)
          = ([], some StreamError.indexError)
        ∧ parse_statement (some (pages1 ++ (p1 ++ ([] : Table) :: ts) :: pages2)) = [] := by
  intro pages1 p1 ts pages2 h1 hp1
  have hmid := tablesInPage_empty_table_aborts p1 ts hp1
  have hall := tablesInPages_error_propagates pages1 _ pages2 h1 hmid
  have hget : get_transaction_tables (pages1 ++ (p1 ++ ([] : Table) :: ts) :: pages2)
      = ([], some StreamError.indexError) := by
    simp [get_transaction_tables, hall]
  refine ⟨hget, ?_⟩
  unfold parse_statement parse_statement_run
  rw [outer_foldl_fst]
  simp [hget]

/-- Claim C10 witness: a preamble page, a page starting with an empty table,
and a later page holding the header and a parseable transaction row — all of
which is lost. -/
theorem claim10_empty_table_aborts_witness :
    get_transaction_tables
        [[[["account", "summary"]]],
         [[["intro", "text"]], [], [["more", "text"]]],
         [[["Date", "Amount", "Transaction", "Details"],
           ["01.03.24", "+ 1 000 ₸", "Transfer", "Alice"]]]]
        = ([], some StreamError.indexError)
      ∧ parse_statement
          (some [[[["account", "summary"]]],
                 [[["intro", "text"]], [], [["more", "text"]]],
                 [[["Date", "Amount", "Transaction", "Details"],
                   ["01.03.24", "+ 1 000 ₸", "Transfer", "Alice"]]]])
        = [] :=
  claim10_empty_table_aborts
    [[[["account", "summary"]]]]
    [[["intro", "text"]]]
    [[["more", "text"]]]
    [[[["Date", "Amount", "Transaction", "Details"],
       ["01.03.24", "+ 1 000 ₸", "Transfer", "Alice"]]]]
    (by rfl) (by rfl)

/-- Claim C6 counterexample: on `"+ , ₸"` the first line matches
`AMOUNT_PATTERN` (amount group `","`, currency group `"₸"`) and the currency
equals the expected symbol, yet `parse_amount` does not return a number — the
normalized literal `"."` makes `float` raise, a third failure mode the claim
excludes. -/
theorem claim6_counterexample :
    parse_amount "+ , ₸" = .error .conversion
      ∧ matchAmountPattern (firstLine ("+ , ₸").data) = some ('+', [','], ['₸'])
      ∧ String.mk ['₸'] = EXPECTED_CURRENCY :=
  ⟨rfl, rfl, rfl⟩

/-- Claim C6 as amended: `parse_amount` fails with a format outcome exactly
when the first line does not match the pattern, with a currency-mismatch
outcome exactly when the pattern matches but the currency token differs from
the expected symbol, and with a conversion outcome exactly when the pattern
and currency are fine but the normalized numeric literal is not a valid
float literal; it returns a number exactly in the remaining case.  The two
concrete rejections of the claim hold as stated. -/
theorem claim6_amended_error_classification :
    parse_amount "garbage" = .error .format
    ∧ parse_amount "+ 20,93 $" = .error .currency
    ∧ (∀ s : String,
      (parse_amount s = .error .format
        ↔ matchAmountPattern (firstLine s.data) = none)
      ∧ (parse_amount s = .error .currency
        ↔ ∃ g a c, matchAmountPattern (firstLine s.data) = some (g, a, c)
            ∧ String.mk c ≠ EXPECTED_CURRENCY)
      ∧ (parse_amount s = .error .conversion
        ↔ ∃ g a c, matchAmountPattern (firstLine s.data) = some (g, a, c)
            ∧ String.mk c = EXPECTED_CURRENCY
            ∧ floatOfNormalized (normalizeAmount a) = none)
      ∧ ((∃ q, parse_amount s = .ok q)
        ↔ ∃ g a c, matchAmountPattern (firstLine s.data) = some (g, a, c)
            ∧ String.mk c = EXPECTED_CURRENCY
            ∧ (floatOfNormalized (normalizeAmount a)).isSome = true)) := by
  refine ⟨rfl, rfl, ?_⟩
  intro s
  rw [parse_amount_eq]
  rcases hm : matchAmountPattern (firstLine s.data) with _ | ⟨g, a, c⟩
  · simp
  · dsimp only
    by_cases hc : String.mk c = EXPECTED_CURRENCY
    · rw [if_pos hc]
      rcases hf : floatOfNormalized (normalizeAmount a) with _ | v
      · refine ⟨by simp, ?_, ?_, ?_⟩
        · constructor
          · intro h
            simp at h
          · rintro ⟨g1, a1, c1, heq, hcc⟩
            simp only [Option.some.injEq, Prod.mk.injEq] at heq
            obtain ⟨rfl, rfl, rfl⟩ := heq
            exact absurd hc hcc
        · constructor
          · intro _
            exact ⟨g, a, c, rfl, hc, hf⟩
          · intro _
            rfl
        · constructor
          · rintro ⟨q, hq⟩
            simp at hq
          · rintro ⟨g1, a1, c1, heq, hcc, hs⟩
            simp only [Option.some.injEq, Prod.mk.injEq] at heq
            obtain ⟨rfl, rfl, rfl⟩ := heq
            rw [hf] at hs
            simp at hs
      · refine ⟨by simp, ?_, ?_, ?_⟩
        · constructor
          · intro h
            simp at h
          · rintro ⟨g1, a1, c1, heq, hcc⟩
            simp only [Option.some.injEq, Prod.mk.injEq] at heq
            obtain ⟨rfl, rfl, rfl⟩ := heq
            exact absurd hc hcc
        · constructor
          · intro h
            simp at h
          · rintro ⟨g1, a1, c1, heq, hcc, hn⟩
            simp only [Option.some.injEq, Prod.mk.injEq] at heq
            obtain ⟨rfl, rfl, rfl⟩ := heq
            rw [hf] at hn
            simp at hn
        · constructor
          · intro _
            exact ⟨g, a, c, rfl, hc, by rw [hf]; rfl⟩
          · intro _
            exact ⟨ite (g = '+') v (-v), rfl⟩
    · rw [if_neg hc]
      refine ⟨by simp, ?_, ?_, ?_⟩
      · constructor
        · intro _
          exact ⟨g, a, c, rfl, hc⟩
        · intro _
          rfl
      · constructor
        · intro h
          simp at h
        · rintro ⟨g1, a1, c1, heq, hcc, hn⟩
          simp only [Option.some.injEq, Prod.mk.injEq] at heq
          obtain ⟨rfl, rfl, rfl⟩ := heq
          exact absurd hcc hc
      · constructor
        · rintro ⟨q, hq⟩
          simp at hq
        · rintro ⟨g1, a1, c1, heq, hcc, hs⟩
          simp only [Option.some.injEq, Prod.mk.injEq] at heq
          obtain ⟨rfl, rfl, rfl⟩ := heq
          exact absurd hcc hc

/-- Claim C8 counterexample: a first line of the shape the claim accepts —
leading whitespace, sign, whitespace, numeric literal, single space, expected
currency symbol — is rejected with a format error, because `AMOUNT_PATTERN`
anchors the sign class at the start of the line; the same line without the
leading space succeeds. -/
theorem claim8_counterexample :
    parse_amount " + 250 ₸" = .error .format
      ∧ parse_amount "+ 250 ₸" = .ok 250 :=
  ⟨rfl, rfl⟩

/-- Characters of the class `[\d, ]` are never a newline. -/
lemma isAmountChar_ne_newline {c : Char} (h : isAmountChar c = true) :
    (c != '\n') = true := by
  rcases eq_or_ne c '\n' with rfl | hne
  · exact absurd h (by decide)
  · simpa using hne

/-- Unfolding the first-line scan one character at a time. -/
lemma firstLine_cons (c : Char) (cs : List Char) (h : (c != '\n') = true) :
    firstLine (c :: cs) = c :: firstLine cs := by
  unfold firstLine
  simp [List.takeWhile_cons, h]

/-- A leading newline makes the first line empty. -/
lemma firstLine_cons_newline (cs : List Char) : firstLine ('\n' :: cs) = [] := by
  unfold firstLine
  simp [List.takeWhile_cons]

/-- A line without newline characters is its own first line. -/
lemma firstLine_eq_self (cs : List Char) (h : ∀ c ∈ cs, (c != '\n') = true) :
    firstLine cs = cs := by
  induction cs with
  | nil => rfl
  | cons c cs ih =>
    rw [firstLine_cons c cs (h c (List.mem_cons_self c cs))]
    exact congrArg (c :: ·) (ih fun u hu => h u (List.mem_cons_of_mem _ hu))

/-- The greedy tail matcher consumes exactly a run of amount characters when
it is followed by the literal space and the tenge sign ending the line. -/
lemma matchAmountMore_amount_chars (a : List Char)
    (h : ∀ c ∈ a, isAmountChar c = true) :
    matchAmountMore (a ++ ' ' :: ['₸']) = some (a, ['₸']) := by
  induction a with
  | nil => rfl
  | cons c a ih =>
    have hc := h c (List.mem_cons_self c a)
    have ih' := ih fun u hu => h u (List.mem_cons_of_mem _ hu)
    simp only [List.cons_append, matchAmountMore, hc, if_true, List.append_eq, ih']

/-- The class `[\d, ]+` matcher on a nonempty run of amount characters
followed by space-and-currency. -/
lemma matchAmountNum_amount_chars (c0 : Char) (a0 : List Char)
    (h : ∀ c ∈ c0 :: a0, isAmountChar c = true) :
    matchAmountNum ((c0 :: a0) ++ ' ' :: ['₸']) = some (c0 :: a0, ['₸']) := by
  have hc0 := h c0 (List.mem_cons_self c0 a0)
  have hmore := matchAmountMore_amount_chars a0 fun u hu => h u (List.mem_cons_of_mem _ hu)
  simp only [List.cons_append, matchAmountNum, hc0, if_true, List.append_eq, hmore]

/-- The greedy `\s*` gap crosses a run of plain spaces and hands over to the
numeral matcher at the first non-whitespace character, provided the numeral
matcher succeeds there. -/
lemma matchSignGap_spaces (ws : List Char) (c0 : Char) (rest : List Char)
    (r : List Char × List Char)
    (hws : ∀ c ∈ ws, c = ' ') (hc0 : isPySpace c0 = false)
    (hnum : matchAmountNum (c0 :: rest) = some r) :
    matchSignGap (ws ++ c0 :: rest) = some r := by
  induction ws with
  | nil =>
    rw [List.nil_append]
    simp only [matchSignGap, hc0, Bool.false_eq_true, if_false]
    exact hnum
  | cons w ws ih =>
    obtain rfl : w = ' ' := hws w (List.mem_cons_self w ws)
    have ih' := ih fun u hu => hws u (List.mem_cons_of_mem _ hu)
    simp only [List.cons_append, matchSignGap, show isPySpace ' ' = true from rfl, if_true,
      List.append_eq, ih']

/-- Claim C8 as amended: the sign must be the very first character of the
first line — any first character other than `+` or `-` (in particular a
leading space) is rejected with a format error; with the sign first, optional
plain spaces, then a numeric literal of digits, spaces and commas starting
with a non-whitespace character, a single space and the expected currency
symbol, `parse_amount` succeeds and returns the signed value of the
literal. -/
theorem claim8_amended_sign_must_lead :
    (∀ (c : Char) (cs : List Char), (c = '+' || c = '-') = false →
        parse_amount (String.mk (c :: cs)) = .error .format)
    ∧ (∀ (sgn c0 : Char) (ws a0 : List Char) (q : ℚ),
        (sgn = '+' || sgn = '-') = true →
        (∀ c ∈ ws, c = ' ') →
        isPySpace c0 = false →
        (∀ c ∈ c0 :: a0, isAmountChar c = true) →
        floatOfNormalized (normalizeAmount (c0 :: a0)) = some q →
        parse_amount (String.mk (sgn :: (ws ++ (c0 :: a0) ++ [' ', '₸'])))
          = .ok (if sgn = '+' then q else -q)) := by
  constructor
  · intro c cs h
    rw [parse_amount_eq]
    by_cases hnl : (c != '\n') = true
    · rw [show (String.mk (c :: cs)).data = c :: cs from rfl, firstLine_cons c cs hnl]
      simp [matchAmountPattern, h]
    · have hcn : c = '\n' := by simpa using hnl
      subst hcn
      rw [show (String.mk ('\n' :: cs)).data = '\n' :: cs from rfl, firstLine_cons_newline]
      rfl
  · intro sgn c0 ws a0 q hsgn hws hc0 hall hfloat
    have hnum : matchAmountNum ((c0 :: a0) ++ ' ' :: ['₸']) = some (c0 :: a0, ['₸']) :=
      matchAmountNum_amount_chars c0 a0 hall
    have hnum' : matchAmountNum (c0 :: (a0 ++ [' ', '₸'])) = some (c0 :: a0, ['₸']) := by
      rw [← List.cons_append]
      exact hnum
    have hsg : matchSignGap (ws ++ c0 :: (a0 ++ [' ', '₸'])) = some (c0 :: a0, ['₸']) :=
      matchSignGap_spaces ws c0 (a0 ++ [' ', '₸']) (c0 :: a0, ['₸']) hws hc0 hnum'
    have hfl : firstLine (sgn :: (ws ++ (c0 :: a0) ++ [' ', '₸']))
        = sgn :: (ws ++ (c0 :: a0) ++ [' ', '₸']) := by
      apply firstLine_eq_self
      intro c hc
      rcases List.mem_cons.mp hc with heq | hc
      · rw [heq]
        rcases (show sgn = '+' ∨ sgn = '-' by simpa using hsgn) with h1 | h1 <;> rw [h1] <;> rfl
      · rcases List.mem_append.mp hc with hc | hc
        · rcases List.mem_append.mp hc with hc | hc
          · rw [hws c hc]; rfl
          · exact isAmountChar_ne_newline (hall c hc)
        · rcases (show c = ' ' ∨ c = '₸' by simpa using hc) with rfl | rfl <;> rfl
    rw [parse_amount_eq,
      show (String.mk (sgn :: (ws ++ (c0 :: a0) ++ [' ', '₸']))).data
        = sgn :: (ws ++ (c0 :: a0) ++ [' ', '₸']) from rfl,
      hfl, matchAmountPattern_sign sgn _ hsgn,
      show ws ++ (c0 :: a0) ++ [' ', '₸'] = ws ++ c0 :: (a0 ++ [' ', '₸']) by simp,
      hsg]
    dsimp only
    rw [if_pos (show String.mk ['₸'] = EXPECTED_CURRENCY from rfl)]
    rw [hfloat]

/-- Claim C8 amended witness: `"+ 1 000 ₸"` built as sign, one space, and the
numeral `1 000`, parses to `1000`. -/
theorem claim8_amended_sign_must_lead_witness :
    parse_amount (String.mk ('+' :: ([' '] ++ ('1' :: " 000".data) ++ [' ', '₸'])))
      = .ok 1000 := by
  have h := claim8_amended_sign_must_lead.2 '+' '1' [' '] (" 000".data) 1000
    (by decide) (by decide) (by decide) (by decide) (by rfl)
  simpa using h

/-- Evaluating the transaction builder on the spec's end-to-end example rows
(the amounts in the exact cast form the parser produces). -/
lemma example_get_transactions :
    get_transactions
        [["01.03.24", "+ 1 000,50 ₸", "Transfer", "Alice"],
         ["02.03.24", "- 250 ₸", "Purchase", "Shop"]]
      = [{ date := ⟨2024, 3, 1⟩, payee := "Alice", memo := "",
           amount := ((1000 : ℕ) : ℚ) + ((50 : ℕ) : ℚ) / (10 : ℚ) ^ (2 : ℕ) },
         { date := ⟨2024, 3, 2⟩, payee := "Shop", memo := "",
           amount := -((250 : ℕ) : ℚ) }] := rfl

/-- Python `round(1000.5)` is 1000: the tie goes to the even neighbor. -/
lemma pyRound_example_pos : pyRound (((1000 : ℕ) : ℚ) + ((50 : ℕ) : ℚ) / (10 : ℚ) ^ (2 : ℕ)) = 1000 := by
  have h : (((1000 : ℕ) : ℚ) + ((50 : ℕ) : ℚ) / (10 : ℚ) ^ (2 : ℕ)) = 2001 / 2 := by
    push_cast
    norm_num
  rw [h]
  unfold pyRound
  norm_num

/-- Python `round(-250.0)` is -250. -/
lemma pyRound_example_neg : pyRound (-((250 : ℕ) : ℚ)) = -250 := by
  have h : (-((250 : ℕ) : ℚ)) = -250 := by push_cast; ring
  rw [h]
  unfold pyRound
  norm_num

/-- The CSV records produced for the spec's end-to-end example rows. -/
lemma example_export :
    (get_transactions
        [["01.03.24", "+ 1 000,50 ₸", "Transfer", "Alice"],
         ["02.03.24", "- 250 ₸", "Purchase", "Shop"]]).map export_row
      = [["2024-03-01", "Alice", "", "1000"], ["2024-03-02", "Shop", "", "-250"]] := by
  rw [example_get_transactions]
  simp only [List.map_cons, List.map_nil, export_row, pyRound_example_pos, pyRound_example_neg]
  decide

/-- Claim C9 counterexample: the end-to-end example rows export with Amount
values `1000` and `-250`, not the claimed `1001` and `-250` — Python's
`round` sends the tie `1000.5` to the even neighbor `1000`. -/
theorem claim9_counterexample :
    (get_transactions
        [["01.03.24", "+ 1 000,50 ₸", "Transfer", "Alice"],
         ["02.03.24", "- 250 ₸", "Purchase", "Shop"]]).map export_row
      = [["2024-03-01", "Alice", "", "1000"], ["2024-03-02", "Shop", "", "-250"]]
    ∧ ¬ ((get_transactions
        [["01.03.24", "+ 1 000,50 ₸", "Transfer", "Alice"],
         ["02.03.24", "- 250 ₸", "Purchase", "Shop"]]).map export_row
      = [["2024-03-01", "Alice", "", "1001"], ["2024-03-02", "Shop", "", "-250"]]) := by
  refine ⟨example_export, ?_⟩
  rw [example_export]
  decide

/-- Claim C9 as amended: the exported Amount field is the transaction amount
rounded to the nearest whole unit with ties to the even neighbor (Python
`round`); the end-to-end example rows produce transactions with amounts
`1000.5` and `-250` and exported records with dates in `YYYY-MM-DD` form and
Amount values `1000` and `-250`; ties go to the even neighbor on both
sides. -/
theorem claim9_amended_export_rounding :
    get_transactions
        [["01.03.24", "+ 1 000,50 ₸", "Transfer", "Alice"],
         ["02.03.24", "- 250 ₸", "Purchase", "Shop"]]
      = [{ date := ⟨2024, 3, 1⟩, payee := "Alice", memo := "", amount := 2001 / 2 },
         { date := ⟨2024, 3, 2⟩, payee := "Shop", memo := "", amount := -250 }]
    ∧ (get_transactions
        [["01.03.24", "+ 1 000,50 ₸", "Transfer", "Alice"],
         ["02.03.24", "- 250 ₸", "Purchase", "Shop"]]).map export_row
      = [["2024-03-01", "Alice", "", "1000"], ["2024-03-02", "Shop", "", "-250"]]
    ∧ (∀ t : Transaction,
        export_row t = [format_date t.date, t.payee, t.memo, toString (pyRound t.amount)])
    ∧ pyRound (2001 / 2) = 1000 ∧ pyRound (2003 / 2) = 1002 ∧ pyRound (-5 / 2) = -2 := by
  refine ⟨?_, example_export, fun t => rfl, ?_, ?_, ?_⟩
  · rw [example_get_transactions]
    push_cast
    norm_num
  · unfold pyRound
    norm_num
  · unfold pyRound
    norm_num
  · unfold pyRound
    norm_num

end Kaspi
